import Mathlib

/-!
Verification of the ESP32 MQTT broker sketches
(`Arduino_ESP32_MQTT_Broker_Webinterface_QOS1_2.ino`, here namespace `QoS12`,
and the basic broker sketch, here namespace `Basic`, plus the small example
broker embedded after the main sketch, namespace `ExampleBroker`).

The C++ sources are shallowly embedded: `std::map` values are association
lists with unique keys, machine integers are `Nat` (byte values stay below
256, so `b & 127` is `b % 128` and `(b & 128) != 0` is `128 ≤ b`, and
`digit |= 0x80` on a 7-bit digit is `digit + 128`), wall-clock `millis()`
readings are explicit `now : Nat` arguments, and every packet written to a
socket becomes an element of an `Act` list.
-/

/-- Association-list model of `std::map`: lookup by key. -/
def alLookup {κ α : Type} [BEq κ] : List (κ × α) → κ → Option α
  | [], _ => none
  | p :: t, k => if p.1 == k then some p.2 else alLookup t k

/-- Association-list model of `std::map` assignment `m[k] = v`:
replace the (unique) binding of `k`, or append a new one. -/
def alInsert {κ α : Type} [BEq κ] : List (κ × α) → κ → α → List (κ × α)
  | [], k, v => [(k, v)]
  | p :: t, k, v => if p.1 == k then (k, v) :: t else p :: alInsert t k v

/-- Association-list model of `std::map::erase`: drop the (unique) binding. -/
def alErase {κ α : Type} [BEq κ] : List (κ × α) → κ → List (κ × α)
  | [], _ => []
  | p :: t, k => if p.1 == k then t else p :: alErase t k

/-- Keys of the association list are pairwise distinct (always true of a
`std::map`, and preserved by `alInsert`/`alErase`). -/
def uniqKeys {κ α : Type} (m : List (κ × α)) : Prop :=
  m.Pairwise fun a b => a.1 ≠ b.1

/-- Embedding of `splitTopic`'s scanning loop: accumulate the current
segment and cut at every `'/'`. -/
def splitTopicAux : List Char → List Char → List String
  | acc, [] => [String.mk acc]
  | acc, c :: cs =>
    if c = '/' then String.mk acc :: splitTopicAux [] cs
    else splitTopicAux (acc ++ [c]) cs

/-- Embedding of `splitTopic` (identical in both broker sketches):
segments of a topic delimited by `'/'`; empty segments are kept and the
result is never empty. -/
def splitTopic (topic : String) : List String :=
  splitTopicAux [] topic.toList

/-- Index-aligned comparison loop shared by both branches of
`topicMatches`: position `i` passes when the filter segment is `"+"` or
equals the topic segment.  `List.zip` truncates, matching the fact that the
C++ loop only runs over the indices of the (possibly shorter) filter part. -/
def segsOK (topicParts filterParts : List String) : Bool :=
  (topicParts.zip filterParts).all fun pr => pr.2 == "+" || pr.1 == pr.2

/-- Embedding of `topicMatches` (lines 137–162 of the QOS1_2 sketch; the
basic sketch's copy is textually identical).  The C++ guard
`!filterParts.empty() && filterParts.back() == "#"` is
`filterParts.getLast? == some "#"` (for the empty list `getLast?` is `none`,
so the conjunct is subsumed). -/
def topicMatches (topic filter : String) : Bool :=
  if filter == "#" then true
  else
    let topicParts := splitTopic topic
    let filterParts := splitTopic filter
    if filterParts.getLast? == some "#" then
      if filterParts.length - 1 ≤ topicParts.length then
        segsOK topicParts filterParts.dropLast
      else false
    else
      if topicParts.length = filterParts.length then
        segsOK topicParts filterParts
      else false

theorem segsOK_self (l : List String) : segsOK l l = true := by
  induction l with
  | nil => rfl
  | cons a t ih => simpa [segsOK, List.zip] using ih

theorem segsOK_self_dropLast (l : List String) : segsOK l l.dropLast = true := by
  induction l with
  | nil => rfl
  | cons a t ih =>
    cases t with
    | nil => rfl
    | cons b t' => simpa [segsOK, List.zip] using ih

theorem topicMatches_self (t : String) : topicMatches t t = true := by
  unfold topicMatches
  by_cases h1 : (t == "#") = true
  · simp [h1]
  · simp only [Bool.not_eq_true] at h1
    simp only [h1, if_false]
    by_cases h2 : ((splitTopic t).getLast? == some "#") = true
    · simp [h2, Nat.sub_le, segsOK_self_dropLast]
    · simp only [Bool.not_eq_true] at h2
      simp [h2, segsOK_self]

theorem topicMatches_concrete_nonfinal_hash (t : String) :
    topicMatches t "a/#/c"
      = (if (splitTopic t).length = 3 then segsOK (splitTopic t) ["a", "#", "c"]
         else false) := rfl

/-- C9: the topic matcher satisfies the spec's algebra: `"#"` matches every
topic, every topic matches itself, `"a/+"` matches `"a/b"`, `"a/#"` matches
`"a/b/c"` and the parent `"a"`, and `"a/b/c"` does not match `"a/b"`. -/
theorem topic_match_algebra :
    (∀ t : String, topicMatches t "#" = true) ∧
    (∀ t : String, topicMatches t t = true) ∧
    topicMatches "a/b" "a/+" = true ∧
    topicMatches "a/b/c" "a/#" = true ∧
    topicMatches "a" "a/#" = true ∧
    topicMatches "a/b" "a/b/c" = false :=
  ⟨fun _ => rfl, topicMatches_self, by decide, by decide, by decide, by decide⟩

/-- C10: a `"#"` segment that is not last in the filter is a literal: the
filter `"a/#/c"` matches exactly the topics whose three segments are the
literal strings `"a"`, `"#"`, `"c"`; the multi-level-wildcard branch of
`topicMatches` fires only when `"#"` is the final filter segment. -/
theorem hash_not_last_is_literal (t : String) :
    topicMatches t "a/#/c" = true ↔ splitTopic t = ["a", "#", "c"] := by
  rw [topicMatches_concrete_nonfinal_hash]
  generalize splitTopic t = l
  rcases l with _ | ⟨x, _ | ⟨y, _ | ⟨z, _ | ⟨w, rest⟩⟩⟩⟩ <;>
    simp [segsOK, List.zip, and_assoc]

/-- Embedding of the Remaining-Length encoder (the `do { digit = remLen %
128; remLen /= 128; if (remLen > 0) digit |= 0x80; } while (remLen > 0)`
loop of `sendMQTTPacket` / `sendPublish`): least-significant 7-bit group
first, continuation bit (`+ 128`, since the digit is below 128) on every
byte except the last. -/
def encodeRemLen (n : Nat) : List Nat :=
  let digit := n % 128
  if h : n / 128 > 0 then (digit + 128) :: encodeRemLen (n / 128)
  else [digit]
termination_by n
decreasing_by exact Nat.div_lt_self (by omega) (by omega)

/-- Loop of `decodeRemainingLength` (basic sketch, lines 99–113), over an
already-received byte stream.  Each byte contributes its low 7 bits times
the multiplier; the multiplier is multiplied by 128 and only THEN compared
against `128*128*128`, and `-1` is returned on overflow or when the stream
ends early (the `waitForBytes` timeout). -/
def decodeRemLenLoop : Nat → Nat → List Nat → Int
  | _, _, [] => -1
  | multiplier, value, b :: rest =>
    let value2 := value + (b % 128) * multiplier
    let mult2 := multiplier * 128
    if mult2 > 128 * 128 * 128 then -1
    else if 128 ≤ b then decodeRemLenLoop mult2 value2 rest
    else Int.ofNat value2

/-- Embedding of `decodeRemainingLength`: multiplier starts at 1, value at
0; `-1` signals a malformed length. -/
def decodeRemainingLength (bytes : List Nat) : Int :=
  decodeRemLenLoop 1 0 bytes

theorem decodeRemLenLoop_encode (k : Nat) : ∀ n mult value, n < 128 ^ k →
    1 ≤ k → mult * 128 ^ k ≤ 128 ^ 3 →
    decodeRemLenLoop mult value (encodeRemLen n) = Int.ofNat (value + n * mult) := by
  induction k with
  | zero => omega
  | succ k ih =>
    intro n mult value hn _ hm
    have hcheck : ¬ mult * 128 > 128 * 128 * 128 := by
      have h128 : 128 ≤ 128 ^ (k + 1) := by
        calc (128 : Nat) = 128 ^ 1 := by norm_num
        _ ≤ 128 ^ (k + 1) := Nat.pow_le_pow_right (by omega) (by omega)
      have : mult * 128 ≤ mult * 128 ^ (k + 1) := Nat.mul_le_mul_left mult h128
      have hp : (128 : Nat) ^ 3 = 128 * 128 * 128 := by norm_num
      omega
    by_cases hd : n / 128 > 0
    · have hk1 : 1 ≤ k := by
        rcases Nat.eq_zero_or_pos k with hk0 | hk0
        · subst hk0; simp at hn; omega
        · omega
      rw [encodeRemLen]
      simp only [hd, dif_pos]
      rw [decodeRemLenLoop]
      simp only [hcheck, if_false, show 128 ≤ n % 128 + 128 by omega, if_pos,
        if_true]
      have hb : (n % 128 + 128) % 128 = n % 128 := by omega
      rw [hb]
      have hrec := ih (n / 128) (mult * 128) (value + n % 128 * mult)
        (Nat.div_lt_of_lt_mul (by rw [pow_succ] at hn; omega))
        hk1 (by rw [pow_succ] at hm; calc mult * 128 * 128 ^ k
               = mult * (128 ^ k * 128) := by ring
             _ ≤ 128 ^ 3 := hm)
      rw [hrec]
      congr 1
      conv_rhs => rw [← Nat.mod_add_div n 128]
      ring
    · have hlt : n < 128 := by omega
      rw [encodeRemLen]
      simp only [hd, dif_neg, not_false_iff]
      rw [decodeRemLenLoop]
      simp [hcheck, Nat.mod_eq_of_lt hlt, show ¬ 128 ≤ n by omega]

/-- Remaining-Length round trip holds for every value that encodes in at
most three bytes, i.e. below `128^3 = 2097152`. -/
theorem decode_encode_below_fourth_byte (n : Nat) (h : n < 128 ^ 3) :
    decodeRemainingLength (encodeRemLen n) = Int.ofNat n := by
  have := decodeRemLenLoop_encode 3 n 1 0 h (by omega) (by norm_num)
  simpa [decodeRemainingLength] using this

/-- C5: the Remaining-Length round trip FAILS for every value that needs a
fourth encoded byte: `decodeRemainingLength` multiplies the multiplier by
128 before comparing it with `128*128*128`, so processing a fourth byte
always returns `-1` — including for `2097152` and the maximum `268435455`,
whose encodings the broker's own encoder produces.  Values below `128^3`
still round-trip, and a five-byte stream is (correctly) rejected. -/
theorem remaining_length_fourth_byte_bug :
    encodeRemLen 2097152 = [128, 128, 128, 1] ∧
    decodeRemainingLength (encodeRemLen 2097152) = -1 ∧
    decodeRemainingLength (encodeRemLen 268435455) = -1 ∧
    decodeRemainingLength (encodeRemLen 2097151) = Int.ofNat 2097151 ∧
    decodeRemainingLength [128, 128, 128, 128, 1] = -1 := by
  have h1 : encodeRemLen 2097152 = [128, 128, 128, 1] := by simp [encodeRemLen]
  have h2 : encodeRemLen 268435455 = [255, 255, 255, 127] := by
    simp [encodeRemLen]
  have h3 : encodeRemLen 2097151 = [255, 255, 127] := by simp [encodeRemLen]
  exact ⟨h1, by rw [h1]; decide, by rw [h2]; decide, by rw [h3]; decide,
    by decide⟩

/-- Packets the broker writes to sockets.  `sendPub` is a `sendPublish`
call toward a subscriber (topic, payload, QoS used on the wire, retain
flag); `sendPubDup` is the retransmitted PUBLISH with the DUP bit set
(fixed header `0x38 | qos << 1 | retain`); the remaining constructors are
the two-byte-id acknowledgement packets. -/
inductive Act where
  | sendPub (topic payload : String) (qos : Nat) (retain : Bool)
  | sendPubDup (topic payload : String) (qos : Nat) (retain : Bool) (pid : Nat)
  | puback (pid : Nat)
  | pubrec (pid : Nat)
  | pubrel (pid : Nat)
  | pubcomp (pid : Nat)
  deriving DecidableEq, Repr

/-- True exactly for forward-to-subscriber `sendPublish` calls. -/
def isDeliver : Act → Bool
  | .sendPub _ _ _ _ => true
  | _ => false

/-- Number of subscriber deliveries among the emitted packets. -/
def deliveries (acts : List Act) : Nat :=
  acts.countP isDeliver

/-- Embedding of the `messageLog.push_back(...); if (messageLog.size() >
50) messageLog.erase(messageLog.begin());` idiom shared by both sketches:
append a `(topic, payload, timestamp)` record, dropping the oldest when the
log exceeds 50 records. -/
def pushLog (log : List (String × String × Nat)) (topic payload : String)
    (now : Nat) : List (String × String × Nat) :=
  let log2 := log ++ [(topic, payload, now)]
  if log2.length > 50 then log2.drop 1 else log2

/-- Embedding of the retained-store update shared by the QOS1_2 sketch
(`handlePublish`, lines 381–389) and the basic sketch (`distributeMessage`,
lines 340–348): with RETAIN set, an empty payload erases the topic and a
non-empty payload overwrites it. -/
def applyRetain (retain : Bool) (topic payload : String)
    (store : List (String × String)) : List (String × String) :=
  if retain then
    if payload.length = 0 then alErase store topic
    else alInsert store topic payload
  else store

/-- Bytes-to-string conversion for parsed topic buffers. -/
def strOfBytes (bs : List Nat) : String :=
  String.mk (bs.map Char.ofNat)

namespace QoS12

/-- `const unsigned long QoS_TIMEOUT_MS = 5000`. -/
def QoS_TIMEOUT_MS : Nat := 5000

/-- `const int MAX_QOS_RETRIES = 3`. -/
def MAX_QOS_RETRIES : Nat := 3

/-- `ActiveSubscription` of the QOS1_2 sketch: the `clientState` pointer is
modelled by a numeric owner id plus the snapshot of
`clientState->client.connected()`; `topicFilter` and the granted `qos` are
kept as stored. -/
structure ActiveSubscription where
  owner : Nat
  connected : Bool
  filter : String
  qos : Nat
  deriving DecidableEq, Repr

/-- `IncomingQoS2State`: fields exactly as in the sketch (`state` is 0 =
PUBLISH received, 1 = PUBREC sent, 2 = PUBREL received). -/
structure IncomingQoS2State where
  topic : String
  payload : String
  qos : Nat
  packetId : Nat
  timestampReceived : Nat
  state : Nat
  deriving DecidableEq, Repr

/-- `OutgoingMessage`: fields exactly as in the sketch (`state` is 0 =
PUBLISH sent, 1 = PUBREC received / PUBREL sent, 2 = PUBREL received). -/
structure OutgoingMessage where
  topic : String
  payload : String
  qos : Nat
  retain : Bool
  packetId : Nat
  timestampSent : Nat
  retryCount : Nat
  state : Nat
  deriving DecidableEq, Repr

/-- State touched by the QOS1_2 packet handlers for one client: the two
per-client QoS maps plus the global message log and retained store. -/
structure BrokerState where
  incoming : List (Nat × IncomingQoS2State)
  outgoing : List (Nat × OutgoingMessage)
  messageLog : List (String × String × Nat)
  retained : List (String × String)
  deriving DecidableEq, Repr

/-- Broker state before any packet is processed. -/
def emptyBroker : BrokerState := ⟨[], [], [], []⟩

/-- Embedding of the forward loop `for (auto &sub : activeSubscriptions) if
(sub.clientState->client.connected() && topicMatches(topic,
sub.topicFilter)) sendPublish(*sub.clientState, topic, payload, sub.qos,
retain);` used by `handlePublish` (line 392) and `handlePubRel` (line
490). -/
def forwardToSubs (subs : List ActiveSubscription) (topic payload : String)
    (retain : Bool) : List Act :=
  (subs.filter fun s => s.connected && topicMatches topic s.filter).map
    fun s => Act.sendPub topic payload s.qos retain

/-- Embedding of `handlePublish` (lines 303–399) after wire parsing, for a
packet with the given header fields.  QoS 1: only a PUBACK is sent (the
`if (qos == 0)` block below is skipped, so nothing is logged, retained or
forwarded).  QoS 2: unless the entry exists with `state == 0` and DUP is
set, the entry is stored with state 0, PUBREC is sent and the state is set
to 1 (modelled by the two successive `alInsert`s).  QoS 0: log, apply
retain, forward to the matching subscribers. -/
def handlePublish (subs : List ActiveSubscription) (now : Nat)
    (st : BrokerState) (qos : Nat) (retain dup : Bool)
    (topic payload : String) (pid : Nat) : BrokerState × List Act :=
  if qos = 1 then
    (st, [Act.puback pid])
  else if qos = 2 then
    let isDupRetransmit :=
      match alLookup st.incoming pid with
      | some e => e.state == 0 && dup
      | none => false
    if isDupRetransmit then (st, [Act.pubrec pid])
    else
      let m1 := alInsert st.incoming pid
        ⟨topic, payload, qos, pid, now, 0⟩
      let m2 := alInsert m1 pid ⟨topic, payload, qos, pid, now, 1⟩
      ({st with incoming := m2}, [Act.pubrec pid])
  else if qos = 0 then
    let log2 := pushLog st.messageLog topic payload now
    let ret2 := applyRetain retain topic payload st.retained
    ({st with messageLog := log2, retained := ret2},
     forwardToSubs subs topic payload retain)
  else (st, [])

/-- Embedding of `handlePubRel` (lines 455–520).  An incoming entry with
state 1 completes the handshake: PUBCOMP, log append, forward loop (the
retain argument is the sketch's literal `inMsg.qos == 2 && inMsg.qos == 2`),
then the entry is erased (the transient `state = 2` write is immediately
followed by the erase).  Other states re-send PUBCOMP only.  Without an
incoming entry, a matching outgoing QoS-2 entry in state 1 moves to state 2
with its timer reset; otherwise PUBCOMP is sent for unknown ids. -/
def handlePubRel (subs : List ActiveSubscription) (now : Nat)
    (st : BrokerState) (pid : Nat) : BrokerState × List Act :=
  match alLookup st.incoming pid with
  | some inMsg =>
    if inMsg.state = 1 then
      ({st with incoming := alErase st.incoming pid,
                messageLog := pushLog st.messageLog inMsg.topic inMsg.payload now},
       Act.pubcomp pid ::
         forwardToSubs subs inMsg.topic inMsg.payload
           ((inMsg.qos == 2) && (inMsg.qos == 2)))
    else (st, [Act.pubcomp pid])
  | none =>
    match alLookup st.outgoing pid with
    | some outMsg =>
      if outMsg.qos = 2 ∧ outMsg.state = 1 then
        let upd := {outMsg with state := 2, timestampSent := now, retryCount := 0}
        ({st with outgoing := alInsert st.outgoing pid upd}, [Act.pubcomp pid])
      else (st, [])
    | none => (st, [Act.pubcomp pid])

end QoS12

namespace QoS12

/-- Outcome of the retransmission walk (`processMQTTClient`, lines 637–676)
for one `outgoingQoSMessages` entry: left untouched, re-sent with updated
bookkeeping, or the connection is closed because the retry budget is
spent. -/
inductive OutStep where
  | keep (e : OutgoingMessage)
  | resend (e : OutgoingMessage) (acts : List Act)
  | close
  deriving DecidableEq, Repr

/-- Packet re-sent for an entry, by phase (lines 648–665): a PUBLISH with
DUP=1 for QoS 1 or QoS 2 in state 0, a PUBREL for QoS 2 in state 1, a
PUBCOMP for QoS 2 in state 2, nothing otherwise. -/
def resendActions (e : OutgoingMessage) : List Act :=
  if e.qos = 1 ∨ (e.qos = 2 ∧ e.state = 0) then
    [Act.sendPubDup e.topic e.payload e.qos e.retain e.packetId]
  else if e.qos = 2 ∧ e.state = 1 then [Act.pubrel e.packetId]
  else if e.qos = 2 ∧ e.state = 2 then [Act.pubcomp e.packetId]
  else []

/-- Embedding of the loop body of the retransmission walk for one entry:
nothing happens unless `millis() - timestampSent > QoS_TIMEOUT_MS`
(strictly greater); then with `retryCount < MAX_QOS_RETRIES` the count is
incremented, the timestamp refreshed and the phase packet re-sent, and
otherwise the client is disconnected (`client.stop()`) and the entry
dropped. -/
def stepOutgoing (now : Nat) (e : OutgoingMessage) : OutStep :=
  if now - e.timestampSent > QoS_TIMEOUT_MS then
    if e.retryCount < MAX_QOS_RETRIES then
      let e2 := {e with retryCount := e.retryCount + 1, timestampSent := now}
      OutStep.resend e2 (resendActions e2)
    else OutStep.close
  else OutStep.keep e

/-- Embedding of `handleSubscribe` (lines 545–597) over the packet body
bytes (after the fixed header): packet id, then ONLY THE FIRST
`(topic_filter_length, topic_filter, requested_qos)` tuple is read — the
sketch's comment says "hier nur der erste" — the granted QoS is the
requested one clamped to 0 when above 2, and the SUBACK is the five-byte
packet `[0x90, 0x03, pid_hi, pid_lo, granted]`.  Two-byte big-endian
fields are `msb * 256 + lsb`.  Returns `(packet_id, filter, granted_qos,
suback_bytes)`, or `none` when the stream is too short. -/
def handleSubscribe (bytes : List Nat) :
    Option (Nat × String × Nat × List Nat) :=
  match bytes with
  | pMsb :: pLsb :: tMsb :: tLsb :: rest =>
    let topicLen := tMsb * 256 + tLsb
    if topicLen ≤ rest.length then
      match rest.drop topicLen with
      | q :: _ =>
        let granted := if q > 2 then 0 else q
        some (pMsb * 256 + pLsb, strOfBytes (rest.take topicLen), granted,
          [0x90, 0x03, pMsb, pLsb, granted])
      | [] => none
    else none
  | _ => none

/-- Embedding of the reap branch of `loop` (lines 828–846) for a client
whose TCP connection is gone: its subscriptions are pruned (the
`remove_if` on the `clientState` pointer, modelled by the owner id) and its
QoS maps cleared — and NO packet of any kind is emitted; in particular the
stored LWT is not published on this path. -/
def removeClient (subs : List ActiveSubscription) (owner : Nat) :
    List ActiveSubscription × List Act :=
  (subs.filter fun s => !(s.owner == owner), [])

end QoS12

namespace Basic

/-- `ActiveSubscription` of the basic sketch: no granted-QoS field; the
`clientState` pointer is modelled by the owner's client id plus the
connection snapshot. -/
structure ActiveSubscription where
  owner : String
  connected : Bool
  filter : String
  deriving DecidableEq, Repr

/-- `MQTTClientState` of the basic sketch, restricted to the fields the
LWT lifecycle reads (`client` is reduced to its `connected()` flag;
`lastSeen` and `subscribedTopics` are omitted). -/
structure MQTTClientState where
  clientId : String
  hasLWT : Bool
  willTopic : String
  willMessage : String
  connected : Bool
  deriving DecidableEq, Repr

/-- Embedding of `distributeMessage` (basic sketch, lines 333–356): push
the record on the message log, apply retain semantics, and send a QoS-0
PUBLISH to every connected subscriber whose filter matches.  Returns the
updated log, the updated retained store and the emitted packets. -/
def distributeMessage (subs : List ActiveSubscription) (now : Nat)
    (log : List (String × String × Nat)) (retained : List (String × String))
    (topic payload : String) (retain : Bool) :
    List (String × String × Nat) × List (String × String) × List Act :=
  (pushLog log topic payload now,
   applyRetain retain topic payload retained,
   (subs.filter fun s => s.connected && topicMatches topic s.filter).map
     fun _s => Act.sendPub topic payload 0 retain)

/-- Embedding of `handlePublish` (basic sketch, lines 358–430) after wire
parsing.  QoS 2: PUBREC is sent and the message is parked in the
broker-wide `pendingQoS2` map under the key `clientId + "-" + packetId`
unless DUP is set and the key is already present.  QoS 0/1: the message is
distributed immediately (log, retain, forward) and QoS 1 additionally gets
a PUBACK afterwards. -/
def handlePublish (subs : List ActiveSubscription) (clientId : String)
    (now : Nat) (pending : List (String × String × String))
    (log : List (String × String × Nat)) (retained : List (String × String))
    (qos : Nat) (retain dup : Bool) (topic payload : String) (pid : Nat) :
    List (String × String × String) × List (String × String × Nat) ×
      List (String × String) × List Act :=
  if qos = 2 then
    let key := clientId ++ "-" ++ toString pid
    let pending2 :=
      if !dup || !(pending.any fun p => p.1 == key) then
        alInsert pending key (topic, payload)
      else pending
    (pending2, log, retained, [Act.pubrec pid])
  else
    let d := distributeMessage subs now log retained topic payload retain
    if qos = 1 then (pending, d.1, d.2.1, d.2.2 ++ [Act.puback pid])
    else (pending, d.1, d.2.1, d.2.2)

/-- Embedding of `handleDisconnect` (basic sketch, lines 500–503): the
socket is stopped and NOTHING else changes — in particular `hasLWT` is not
cleared. -/
def handleDisconnect (c : MQTTClientState) : MQTTClientState :=
  {c with connected := false}

/-- Embedding of `removeClient` (basic sketch, lines 523–539): if the
client still has `hasLWT` set, its will is distributed (QoS 0, retain
false) — on EVERY removal, whether or not a DISCONNECT was received — and
then its subscriptions are pruned by client id. -/
def removeClient (subs : List ActiveSubscription) (now : Nat)
    (log : List (String × String × Nat)) (retained : List (String × String))
    (c : MQTTClientState) :
    List ActiveSubscription × List (String × String × Nat) ×
      List (String × String) × List Act :=
  let d :=
    if c.hasLWT then distributeMessage subs now log retained c.willTopic c.willMessage false
    else (log, retained, [])
  (subs.filter fun s => !(s.owner == c.clientId), d.1, d.2.1, d.2.2)

/-- Loop of `handleSubscribe` (basic sketch, lines 460–486): while
`bytesRead < remainingLength`, read a `(len, filter, qos)` tuple; `budget`
is the number of body bytes still owed (`remainingLength - bytesRead`),
which falls by `2 + topicLen + 1` per round.  Returns `none` when the
stream runs short. -/
def subTuples (budget : Nat) (bytes : List Nat) :
    Option (List (String × Nat)) :=
  if h : budget = 0 then some []
  else
    match bytes with
    | lMsb :: lLsb :: rest =>
      let topicLen := lMsb * 256 + lLsb
      if topicLen ≤ rest.length then
        match rest.drop topicLen with
        | q :: rest2 =>
          match subTuples (budget - (2 + topicLen + 1)) rest2 with
          | some more => some ((strOfBytes (rest.take topicLen), q) :: more)
          | none => none
        | [] => none
      else none
    | _ => none
termination_by budget
decreasing_by omega

/-- Embedding of `handleSubscribe` (basic sketch, lines 453–492): packet
id, then every `(filter, requested_qos)` tuple until the Remaining Length
is consumed — but the SUBACK is always the five-byte packet `[0x90, 0x03,
pid_hi, pid_lo, 0x00]` with a single hard-coded return code, regardless of
the number of filters or their requested QoS. -/
def handleSubscribe (remLen : Nat) (bytes : List Nat) :
    Option (Nat × List (String × Nat) × List Nat) :=
  match bytes with
  | pMsb :: pLsb :: rest =>
    match subTuples (remLen - 2) rest with
    | some tuples =>
      some (pMsb * 256 + pLsb, tuples, [0x90, 0x03, pMsb, pLsb, 0x00])
    | none => none
  | _ => none

end Basic

namespace ExampleBroker

/-- Embedding of the retained update of the example broker appended to the
main sketch (lines 958–961): `if (retain) retainedMessages[topic] =
payload;` — the payload is stored unconditionally, even when empty; no
deletion path exists. -/
def applyRetain (retain : Bool) (topic payload : String)
    (store : List (String × String)) : List (String × String) :=
  if retain then alInsert store topic payload else store

end ExampleBroker

namespace QoS12

/-- Shape of the `incomingQoS2Messages` entry right after `handlePublish`
processed a QoS-2 PUBLISH: stored message with PUBREC sent (state 1). -/
def mkInflight (t p : String) (pid received : Nat) : IncomingQoS2State :=
  ⟨t, p, 2, pid, received, 1⟩

/-- Trace of inbound QoS-2 PUBLISH packets for one `(t, p, pid)` message:
each element of `flags` is the DUP flag and arrival time of one
(re)transmission, processed by `handlePublish`; emitted packets are
concatenated. -/
def runPubs (subs : List ActiveSubscription) (pid : Nat) (t p : String)
    (r : Bool) : BrokerState → List (Bool × Nat) → BrokerState × List Act
  | st, [] => (st, [])
  | st, (d, now) :: rest =>
    let s1 := handlePublish subs now st 2 r d t p pid
    let s2 := runPubs subs pid t p r s1.1 rest
    (s2.1, s1.2 ++ s2.2)

/-- Trace of `k` inbound PUBREL packets for `pid`, processed by
`handlePubRel`. -/
def runRels (subs : List ActiveSubscription) (pid now2 : Nat) :
    BrokerState → Nat → BrokerState × List Act
  | st, 0 => (st, [])
  | st, k + 1 =>
    let s1 := handlePubRel subs now2 st pid
    let s2 := runRels subs pid now2 s1.1 k
    (s2.1, s1.2 ++ s2.2)

theorem handlePublish_qos2_fresh (subs : List ActiveSubscription)
    (now : Nat) (og : List (Nat × OutgoingMessage))
    (ml : List (String × String × Nat)) (rt : List (String × String))
    (r d : Bool) (t p : String) (pid : Nat) :
    handlePublish subs now ⟨[], og, ml, rt⟩ 2 r d t p pid
      = (⟨[(pid, mkInflight t p pid now)], og, ml, rt⟩, [Act.pubrec pid]) := by
  simp [handlePublish, alLookup, alInsert, mkInflight]

theorem handlePublish_qos2_inflight (subs : List ActiveSubscription)
    (now τ : Nat) (og : List (Nat × OutgoingMessage))
    (ml : List (String × String × Nat)) (rt : List (String × String))
    (r d : Bool) (t p : String) (pid : Nat) :
    handlePublish subs now ⟨[(pid, mkInflight t p pid τ)], og, ml, rt⟩
        2 r d t p pid
      = (⟨[(pid, mkInflight t p pid now)], og, ml, rt⟩, [Act.pubrec pid]) := by
  simp [handlePublish, alLookup, alInsert, mkInflight]

theorem runPubs_inflight (subs : List ActiveSubscription) (pid : Nat)
    (t p : String) (r : Bool) (flags : List (Bool × Nat)) :
    ∀ (og : List (Nat × OutgoingMessage)) (ml : List (String × String × Nat))
      (rt : List (String × String)) (τ : Nat),
    ∃ τ2, runPubs subs pid t p r ⟨[(pid, mkInflight t p pid τ)], og, ml, rt⟩ flags
      = (⟨[(pid, mkInflight t p pid τ2)], og, ml, rt⟩,
         List.replicate flags.length (Act.pubrec pid)) := by
  induction flags with
  | nil => intro og ml rt τ; exact ⟨τ, by simp [runPubs]⟩
  | cons dn rest ih =>
    obtain ⟨d, now⟩ := dn
    intro og ml rt τ
    obtain ⟨τ2, h2⟩ := ih og ml rt now
    refine ⟨τ2, ?_⟩
    simp only [runPubs, handlePublish_qos2_inflight, h2, List.replicate_succ,
      List.length_cons]
    simp

theorem runPubs_fresh (subs : List ActiveSubscription) (pid : Nat)
    (t p : String) (r : Bool) (flags : List (Bool × Nat))
    (og : List (Nat × OutgoingMessage)) (ml : List (String × String × Nat))
    (rt : List (String × String)) (hne : flags ≠ []) :
    ∃ τ2, runPubs subs pid t p r ⟨[], og, ml, rt⟩ flags
      = (⟨[(pid, mkInflight t p pid τ2)], og, ml, rt⟩,
         List.replicate flags.length (Act.pubrec pid)) := by
  match flags with
  | [] => exact absurd rfl hne
  | (d, now) :: rest =>
    obtain ⟨τ2, h2⟩ := runPubs_inflight subs pid t p r rest og ml rt now
    refine ⟨τ2, ?_⟩
    simp only [runPubs, handlePublish_qos2_fresh, h2, List.replicate_succ,
      List.length_cons]
    simp

theorem handlePubRel_complete (subs : List ActiveSubscription)
    (now : Nat) (ml : List (String × String × Nat))
    (rt : List (String × String)) (t p : String) (pid τ : Nat) :
    handlePubRel subs now ⟨[(pid, mkInflight t p pid τ)], [], ml, rt⟩ pid
      = (⟨[], [], pushLog ml t p now, rt⟩,
         Act.pubcomp pid :: forwardToSubs subs t p true) := by
  simp [handlePubRel, alLookup, alErase, mkInflight]

theorem handlePubRel_unknown (subs : List ActiveSubscription)
    (now : Nat) (ml : List (String × String × Nat))
    (rt : List (String × String)) (pid : Nat) :
    handlePubRel subs now ⟨[], [], ml, rt⟩ pid
      = (⟨[], [], ml, rt⟩, [Act.pubcomp pid]) := by
  simp [handlePubRel, alLookup]

theorem runRels_unknown (subs : List ActiveSubscription) (pid now2 : Nat)
    (ml : List (String × String × Nat)) (rt : List (String × String))
    (k : Nat) :
    runRels subs pid now2 ⟨[], [], ml, rt⟩ k
      = (⟨[], [], ml, rt⟩, List.replicate k (Act.pubcomp pid)) := by
  induction k with
  | zero => simp [runRels]
  | succ k ih =>
    simp only [runRels, handlePubRel_unknown, ih, List.replicate_succ]
    simp

end QoS12

theorem deliveries_append (a b : List Act) :
    deliveries (a ++ b) = deliveries a + deliveries b := by
  simp [deliveries, List.countP_append]

theorem deliveries_replicate (n : Nat) (a : Act) (h : isDeliver a = false) :
    deliveries (List.replicate n a) = 0 := by
  induction n with
  | zero => rfl
  | succ n ih =>
    simp only [List.replicate_succ, deliveries, List.countP_cons, h] at ih ⊢
    simpa using ih

theorem deliveries_forward (subs : List QoS12.ActiveSubscription)
    (t p : String) (r : Bool) :
    deliveries (QoS12.forwardToSubs subs t p r)
      = (subs.filter fun s => s.connected && topicMatches t s.filter).length := by
  unfold QoS12.forwardToSubs deliveries
  generalize subs.filter (fun s => s.connected && topicMatches t s.filter) = l
  induction l with
  | nil => rfl
  | cons s rest ih =>
    simp [List.countP_cons, isDeliver, ih]

/-- C1: an inbound QoS-2 PUBLISH is forwarded to subscribers only after the
PUBREL arrives, and exactly one forwarding pass (one `sendPublish` per
matching connected subscription) happens per inbound packet id, no matter
how many retransmissions of the PUBLISH (with any DUP flags and arrival
times) precede the PUBREL and how many further PUBRELs follow: the
PUBLISH trace emits zero deliveries, and the PUBREL trace emits exactly
`matching-subscriptions` many. -/
theorem qos2_inbound_exactly_once (subs : List QoS12.ActiveSubscription)
    (pid : Nat) (t p : String) (r : Bool) (flags : List (Bool × Nat))
    (now2 k : Nat) (hne : flags ≠ []) :
    deliveries (QoS12.runPubs subs pid t p r QoS12.emptyBroker flags).2 = 0 ∧
    deliveries (QoS12.runRels subs pid now2
        (QoS12.runPubs subs pid t p r QoS12.emptyBroker flags).1 (k + 1)).2
      = (subs.filter fun s => s.connected && topicMatches t s.filter).length := by
  obtain ⟨τ2, hrun⟩ := QoS12.runPubs_fresh subs pid t p r flags [] [] [] hne
  rw [show QoS12.emptyBroker = (⟨[], [], [], []⟩ : QoS12.BrokerState) from rfl,
    hrun]
  constructor
  · exact deliveries_replicate flags.length (Act.pubrec pid) rfl
  · simp only [QoS12.runRels, QoS12.handlePubRel_complete,
      QoS12.runRels_unknown]
    have h1 : deliveries (Act.pubcomp pid :: QoS12.forwardToSubs subs t p true)
        = deliveries (QoS12.forwardToSubs subs t p true) := by
      simp [deliveries, List.countP_cons, isDeliver]
    rw [deliveries_append, h1, deliveries_forward,
      deliveries_replicate k (Act.pubcomp pid) rfl]
    omega

/-- Concrete subscription list for the exactly-once witness. -/
def subsW1 : List QoS12.ActiveSubscription := [⟨1, true, "t", 1⟩]

theorem qos2_inbound_exactly_once_witness :
    deliveries (QoS12.runPubs subsW1 9 "t" "x" false QoS12.emptyBroker
        [(true, 0)]).2 = 0 ∧
    deliveries (QoS12.runRels subsW1 9 7
        (QoS12.runPubs subsW1 9 "t" "x" false QoS12.emptyBroker
          [(true, 0)]).1 1).2
      = (subsW1.filter fun s => s.connected && topicMatches "t" s.filter).length :=
  qos2_inbound_exactly_once subsW1 9 "t" "x" false [(true, 0)] 7 0 (by decide)

/-- C2: a QoS-1 PUBLISH (topic `"test"`, payload `"hi!"`, packet id 7, one
connected subscriber on `"test"`).  In the QOS1_2 sketch the broker emits
ONLY the PUBACK — no delivery, no retained update, no MessageLog append
(state unchanged), although its own comment says QoS-1 messages are
forwarded later.  The basic sketch does what the claim says: distribute
(deliver at QoS 0, log, retain) and then PUBACK. -/
theorem qos1_publish_not_delivered :
    QoS12.handlePublish [⟨1, true, "test", 0⟩] 0 QoS12.emptyBroker 1 false false
        "test" "hi!" 7
      = (QoS12.emptyBroker, [Act.puback 7]) ∧
    Basic.handlePublish [⟨"s1", true, "test"⟩] "pub" 0 [] [] [] 1 false false
        "test" "hi!" 7
      = ([], [("test", "hi!", 0)], [],
         [Act.sendPub "test" "hi!" 0 false, Act.puback 7]) := by
  exact ⟨by decide, by decide⟩

/-- C3: LWT dispatch contradicts the claim on both close paths.  In the
basic sketch, `handleDisconnect` does not clear `hasLWT`, so the subsequent
`removeClient` still publishes the will (`"bye"`/`"gone"`) to the matching
subscriber AFTER a clean DISCONNECT.  In the QOS1_2 sketch, the reap
branch of `loop` emits no packet at all, so a TCP drop without DISCONNECT
never publishes the LWT (only the Keep-Alive-timeout path does). -/
theorem lwt_after_clean_disconnect :
    (Basic.handleDisconnect ⟨"c1", true, "bye", "gone", true⟩).hasLWT = true ∧
    (Basic.removeClient [⟨"s1", true, "bye"⟩] 5 [] []
        (Basic.handleDisconnect ⟨"c1", true, "bye", "gone", true⟩)).2.2.2
      = [Act.sendPub "bye" "gone" 0 false] ∧
    (QoS12.removeClient [⟨7, true, "bye", 0⟩] 5).2 = ([] : List Act) := by
  exact ⟨rfl, by decide, rfl⟩

/-- C4 counterexample: a QoS-0 PUBLISH on `"t"` with one connected
subscriber whose granted QoS is 2 is forwarded at QoS 2, not at
`min(publisher_qos, granted_qos) = min 0 2 = 0`: the claim is false. -/
theorem delivery_qos_not_min :
    (QoS12.handlePublish [⟨1, true, "t", 2⟩] 0 QoS12.emptyBroker 0 false false
        "t" "x" 0).2
      = [Act.sendPub "t" "x" 2 false] ∧
    (2 : Nat) ≠ min 0 2 := by
  exact ⟨by decide, by decide⟩

/-- C4 amended: on every delivery pass (the QoS-0 branch of
`handlePublish` and the completion branch of `handlePubRel`), each
connected subscription with a matching filter receives exactly one PUBLISH
sent at the SUBSCRIBER'S granted QoS `sub.qos` — the publisher's QoS does
not cap it — and every emitted delivery arises from such a subscription. -/
theorem delivery_at_granted_qos (subs : List QoS12.ActiveSubscription)
    (topic payload : String) (r : Bool) :
    (∀ s, s ∈ subs → s.connected = true → topicMatches topic s.filter = true →
        Act.sendPub topic payload s.qos r
          ∈ QoS12.forwardToSubs subs topic payload r) ∧
    (∀ a, a ∈ QoS12.forwardToSubs subs topic payload r →
        ∃ s, s ∈ subs ∧ s.connected = true ∧ topicMatches topic s.filter = true ∧
          a = Act.sendPub topic payload s.qos r) ∧
    (∀ (now : Nat) (st : QoS12.BrokerState) (pid : Nat),
        (QoS12.handlePublish subs now st 0 r false topic payload pid).2
          = QoS12.forwardToSubs subs topic payload r) ∧
    (∀ (now : Nat) (st : QoS12.BrokerState) (pid : Nat)
        (e : QoS12.IncomingQoS2State),
        alLookup st.incoming pid = some e → e.state = 1 →
        (QoS12.handlePubRel subs now st pid).2
          = Act.pubcomp pid ::
              QoS12.forwardToSubs subs e.topic e.payload
                ((e.qos == 2) && (e.qos == 2))) := by
  refine ⟨?_, ?_, ?_, ?_⟩
  · intro s hs hc hm
    unfold QoS12.forwardToSubs
    exact List.mem_map_of_mem _ (List.mem_filter.mpr ⟨hs, by simp [hc, hm]⟩)
  · intro a ha
    unfold QoS12.forwardToSubs at ha
    obtain ⟨s, hsf, rfl⟩ := List.mem_map.mp ha
    obtain ⟨hs, hpred⟩ := List.mem_filter.mp hsf
    have hpred2 : s.connected = true ∧ topicMatches topic s.filter = true := by
      simpa using hpred
    exact ⟨s, hs, hpred2.1, hpred2.2, rfl⟩
  · intro now st pid; rfl
  · intro now st pid e he h1
    simp [QoS12.handlePubRel, he, h1]

/-- Concrete subscription for the granted-QoS witness. -/
def subW4 : QoS12.ActiveSubscription := ⟨2, true, "t", 2⟩

theorem delivery_at_granted_qos_witness :
    Act.sendPub "t" "x" 2 false ∈ QoS12.forwardToSubs [subW4] "t" "x" false :=
  (delivery_at_granted_qos [subW4] "t" "x" false).1 subW4
    (List.mem_singleton_self _) rfl (by decide)

theorem alLookup_alInsert_self {κ α : Type} [BEq κ] [LawfulBEq κ]
    (m : List (κ × α)) (k : κ) (v : α) :
    alLookup (alInsert m k v) k = some v := by
  induction m with
  | nil => simp [alInsert, alLookup]
  | cons p t ih =>
    by_cases h : (p.1 == k) = true
    · simp [alInsert, alLookup, h]
    · simp only [Bool.not_eq_true] at h
      simp [alInsert, alLookup, h, ih]

theorem alLookup_eq_none {κ α : Type} [BEq κ] [LawfulBEq κ]
    (m : List (κ × α)) (k : κ) (h : ∀ q ∈ m, q.1 ≠ k) :
    alLookup m k = none := by
  induction m with
  | nil => rfl
  | cons p t ih =>
    have hp : (p.1 == k) = false :=
      beq_eq_false_iff_ne.mpr (h p (List.mem_cons_self p t))
    simp [alLookup, hp]
    exact ih fun q hq => h q (List.mem_cons_of_mem p hq)

theorem alLookup_alErase_self {κ α : Type} [BEq κ] [LawfulBEq κ]
    (m : List (κ × α)) (k : κ) (hU : uniqKeys m) :
    alLookup (alErase m k) k = none := by
  induction m with
  | nil => rfl
  | cons p t ih =>
    obtain ⟨hp, ht⟩ := List.pairwise_cons.mp hU
    by_cases h : (p.1 == k) = true
    · have hk : p.1 = k := eq_of_beq h
      simp only [alErase, h, if_true]
      exact alLookup_eq_none t k fun q hq => by
        have := hp q hq; rw [← hk]; exact fun hc => this hc.symm
    · simp only [Bool.not_eq_true] at h
      simp [alErase, alLookup, h, ih ht]

theorem mem_alInsert {κ α : Type} [BEq κ] (m : List (κ × α)) (k : κ) (v : α)
    (a : κ × α) (h : a ∈ alInsert m k v) : a = (k, v) ∨ a ∈ m := by
  induction m with
  | nil => simpa [alInsert] using h
  | cons p t ih =>
    by_cases hp : (p.1 == k) = true
    · simp only [alInsert, hp, if_true] at h
      rcases List.mem_cons.mp h with h | h
      · exact Or.inl h
      · exact Or.inr (List.mem_cons_of_mem p h)
    · simp only [Bool.not_eq_true] at hp
      simp only [alInsert, hp, Bool.false_eq_true, if_false] at h
      rcases List.mem_cons.mp h with h | h
      · exact Or.inr (h ▸ List.mem_cons_self p t)
      · rcases ih h with h | h
        · exact Or.inl h
        · exact Or.inr (List.mem_cons_of_mem p h)

theorem mem_alErase {κ α : Type} [BEq κ] (m : List (κ × α)) (k : κ)
    (a : κ × α) (h : a ∈ alErase m k) : a ∈ m := by
  induction m with
  | nil => simpa [alErase] using h
  | cons p t ih =>
    by_cases hp : (p.1 == k) = true
    · simp only [alErase, hp, if_true] at h
      exact List.mem_cons_of_mem p h
    · simp only [Bool.not_eq_true] at hp
      simp only [alErase, hp, Bool.false_eq_true, if_false] at h
      rcases List.mem_cons.mp h with h | h
      · exact h ▸ List.mem_cons_self p t
      · exact List.mem_cons_of_mem p (ih h)

/-- No retained entry holds an empty payload. -/
def noEmptyPayload (store : List (String × String)) : Prop :=
  ∀ e ∈ store, e.2 ≠ ""

/-- C7 amended: the retained-store update of the two full broker sketches
does implement the claim where it is invoked: with RETAIN set, a non-empty
payload leaves the topic bound to exactly that payload, an empty payload
removes the binding, and the no-empty-payload invariant is preserved. -/
theorem retained_update_no_empty (store : List (String × String))
    (topic payload : String) (hU : uniqKeys store) (hE : noEmptyPayload store) :
    noEmptyPayload (applyRetain true topic payload store) ∧
    alLookup (applyRetain true topic payload store) topic
      = (if payload.length = 0 then none else some payload) := by
  unfold applyRetain
  by_cases hp : payload.length = 0
  · simp only [hp, if_true]
    refine ⟨fun e he => hE e (mem_alErase store topic e he), ?_⟩
    simp [alLookup_alErase_self store topic hU]
  · simp only [hp, if_false]
    constructor
    · intro e he
      rcases mem_alInsert store topic payload e he with h | h
      · rw [h]
        intro hc
        have hpe : payload = "" := hc
        rw [hpe] at hp
        exact hp rfl
      · exact hE e h
    · simp [alLookup_alInsert_self, hp]

theorem retained_update_no_empty_witness :
    noEmptyPayload (applyRetain true "t" "" [("x", "1")]) ∧
    alLookup (applyRetain true "t" "" [("x", "1")]) "t" = none := by
  have h := retained_update_no_empty [("x", "1")] "t" ""
    (by simp [uniqKeys]) (by intro e he; simp at he; simp [he])
  exact ⟨h.1, by simpa using h.2⟩

/-- C7 counterexample: the example broker cited by the claim stores the
payload unconditionally on RETAIN, so publishing an EMPTY retained payload
on `"t"` leaves the entry `("t", "")` in the store and lookup returns
`some ""` — the claim says the topic would be removed and that no
empty-payload entry can exist. -/
theorem retained_empty_payload_example :
    ExampleBroker.applyRetain true "t" "" [] = [("t", "")] ∧
    alLookup (ExampleBroker.applyRetain true "t" "" []) "t" = some "" ∧
    some "" ≠ (none : Option String) := by
  exact ⟨rfl, rfl, by decide⟩

/-- Concrete in-flight outbound QoS-1 message: sent at time 0, no retries
yet. -/
def outW : QoS12.OutgoingMessage := ⟨"t", "p", 1, false, 7, 0, 0, 0⟩

/-- C8 counterexample: at exactly `QOS_TIMEOUT_MS` = 5000 ms elapsed
(entry sent at 0, tick at 5000) with retry count 0 < 3, the claim mandates
a resend ("at least 5000 ms elapsed"), but `processMQTTClient` requires
STRICTLY more than 5000 ms and leaves the entry untouched. -/
theorem retransmit_at_timeout_boundary :
    QoS12.stepOutgoing 5000 outW = QoS12.OutStep.keep outW ∧
    QoS12.OutStep.keep outW
      ≠ QoS12.OutStep.resend ({outW with retryCount := 1, timestampSent := 5000})
          (QoS12.resendActions ({outW with retryCount := 1, timestampSent := 5000})) := by
  exact ⟨rfl, by decide⟩

/-- C8 amended: once STRICTLY more than `QOS_TIMEOUT_MS` (5000 ms) has
elapsed since the last send, an entry with fewer than `MAX_QOS_RETRIES`
(3) retries is re-sent with its retry count incremented and its timestamp
refreshed — a PUBLISH with DUP=1 while awaiting PUBACK (QoS 1) or PUBREC
(QoS 2, state 0), a PUBREL while awaiting PUBCOMP (QoS 2, state 1) — and
an entry at the retry ceiling closes the session; at or below the timeout
nothing happens, and a re-sent entry never exceeds 3 retries. -/
theorem retransmit_step_spec (now : Nat) (e : QoS12.OutgoingMessage) :
    (now - e.timestampSent > QoS12.QoS_TIMEOUT_MS →
      (e.retryCount < QoS12.MAX_QOS_RETRIES →
        QoS12.stepOutgoing now e
          = QoS12.OutStep.resend
              ({e with retryCount := e.retryCount + 1, timestampSent := now})
              (QoS12.resendActions
                ({e with retryCount := e.retryCount + 1, timestampSent := now}))) ∧
      (QoS12.MAX_QOS_RETRIES ≤ e.retryCount →
        QoS12.stepOutgoing now e = QoS12.OutStep.close)) ∧
    (now - e.timestampSent ≤ QoS12.QoS_TIMEOUT_MS →
      QoS12.stepOutgoing now e = QoS12.OutStep.keep e) ∧
    (∀ (e2 : QoS12.OutgoingMessage) (acts : List Act),
      QoS12.stepOutgoing now e = QoS12.OutStep.resend e2 acts →
      e2.retryCount ≤ QoS12.MAX_QOS_RETRIES) ∧
    (e.qos = 1 ∨ (e.qos = 2 ∧ e.state = 0) →
      QoS12.resendActions e
        = [Act.sendPubDup e.topic e.payload e.qos e.retain e.packetId]) ∧
    (e.qos = 2 ∧ e.state = 1 →
      QoS12.resendActions e = [Act.pubrel e.packetId]) := by
  refine ⟨fun ht => ⟨fun hr => ?_, fun hr => ?_⟩, fun ht => ?_, ?_, ?_, ?_⟩
  · simp [QoS12.stepOutgoing, ht, hr]
  · simp [QoS12.stepOutgoing, ht, Nat.not_lt.mpr hr]
  · simp [QoS12.stepOutgoing, Nat.not_lt.mpr ht]
  · intro e2 acts h
    unfold QoS12.stepOutgoing at h
    split_ifs at h with h1 h2
    injection h with h3 h4
    rw [← h3]
    show e.retryCount + 1 ≤ QoS12.MAX_QOS_RETRIES
    simp only [QoS12.MAX_QOS_RETRIES] at h2 ⊢
    omega
  · intro hq
    simp [QoS12.resendActions, hq]
  · intro hq
    have hq1 : ¬ (e.qos = 1 ∨ (e.qos = 2 ∧ e.state = 0)) := by omega
    simp [QoS12.resendActions, hq1, hq]

theorem retransmit_step_spec_witness :
    QoS12.stepOutgoing 5001 outW
      = QoS12.OutStep.resend ({outW with retryCount := 1, timestampSent := 5001})
          (QoS12.resendActions ({outW with retryCount := 1, timestampSent := 5001})) :=
  ((retransmit_step_spec 5001 outW).1 (by decide)).1 (by decide)

/-- Body bytes of a SUBSCRIBE packet with packet id 1 and two filters:
`"a"` (byte 97) requesting QoS 1 and `"b"` (byte 98) requesting QoS 2;
Remaining Length 10. -/
def subBytes : List Nat := [0, 1, 0, 1, 97, 1, 0, 1, 98, 2]

/-- C6 counterexample: for the two-filter SUBSCRIBE `subBytes` the claim
requires one SUBACK `[0x90, 2+N, pid, g1, g2] = [0x90, 4, 0, 1, 1, 2]`.
The basic sketch parses both filters but answers `[0x90, 0x03, 0, 1, 0x00]`
(single hard-coded success code); the QOS1_2 sketch parses ONLY the first
filter and answers `[0x90, 0x03, 0, 1, 1]` (length byte 3, one code). -/
theorem subscribe_multi_filter_suback :
    Basic.handleSubscribe 10 subBytes
      = some (1, [("a", 1), ("b", 2)], [0x90, 0x03, 0, 1, 0x00]) ∧
    ([0x90, 0x03, 0, 1, 0x00] : List Nat) ≠ [0x90, 2 + 2, 0, 1, 1, 2] ∧
    QoS12.handleSubscribe subBytes = some (1, "a", 1, [0x90, 0x03, 0, 1, 1]) ∧
    ([0x90, 0x03, 0, 1, 1] : List Nat) ≠ [0x90, 2 + 2, 0, 1, 1, 2] := by
  refine ⟨?_, by decide, by decide, by decide⟩
  have ha : strOfBytes [97] = "a" := rfl
  have hb : strOfBytes [98] = "b" := rfl
  simp [Basic.handleSubscribe, subBytes, Basic.subTuples, ha, hb]

/-- C6 amended: the QOS1_2 sketch reads the packet id and only the FIRST
`(filter_length, filter, requested_qos)` tuple, grants the requested QoS
when it is at most 2 and 0 otherwise, and replies with the single-code
SUBACK `[0x90, 0x03, pid_hi, pid_lo, granted]`; the basic sketch parses
every tuple until the Remaining Length is consumed but always replies
`[0x90, 0x03, pid_hi, pid_lo, 0x00]`, independent of the filter count and
requested QoS values. -/
theorem subscribe_first_filter_granted (pMsb pLsb tMsb tLsb q : Nat)
    (tb rest : List Nat) (h : tb.length = tMsb * 256 + tLsb) :
    QoS12.handleSubscribe (pMsb :: pLsb :: tMsb :: tLsb :: (tb ++ q :: rest))
      = some (pMsb * 256 + pLsb, strOfBytes tb, (if q > 2 then 0 else q),
          [0x90, 0x03, pMsb, pLsb, if q > 2 then 0 else q]) ∧
    (∀ (remLen : Nat) (body : List Nat)
        (res : Nat × List (String × Nat) × List Nat),
      Basic.handleSubscribe remLen (pMsb :: pLsb :: body) = some res →
      res.2.2 = [0x90, 0x03, pMsb, pLsb, 0x00] ∧ res.1 = pMsb * 256 + pLsb) := by
  constructor
  · have hle : tMsb * 256 + tLsb ≤ (tb ++ q :: rest).length := by
      rw [← h]; simp [List.length_append]
    simp only [QoS12.handleSubscribe]
    rw [← h, List.take_left, List.drop_left, if_pos (h ▸ hle)]
  · intro remLen body res hres
    simp only [Basic.handleSubscribe] at hres
    rcases hby : Basic.subTuples (remLen - 2) body with _ | tuples
    · rw [hby] at hres; simp at hres
    · rw [hby] at hres
      simp only [Option.some.injEq] at hres
      rw [← hres]
      exact ⟨rfl, rfl⟩

theorem subscribe_first_filter_granted_witness :
    QoS12.handleSubscribe subBytes
      = some (1, strOfBytes [97], 1, [0x90, 0x03, 0, 1, 1]) :=
  (subscribe_first_filter_granted 0 1 0 1 1 [97] [0, 1, 98, 2] (by decide)).1
